import Mathlib

/-!
# Family-group membership subsystem: shallow embedding

This file embeds the family-group membership and invitation subsystem of the
Recipe Organizer backend (`src/controllers/familyController.ts`) as pure Lean
functions, and proves or refutes the specified properties of its operations.

Modelling conventions:
- Mongo documents become Lean structures; object ids and emails are `String`;
  timestamps (`Date`) are `Nat`.
- Each controller endpoint becomes a pure function from its inputs and the
  current aggregate (or list of aggregates) to `Except ApiError _`; a thrown
  `ApiError(message, status)` becomes `.error ⟨message, status⟩`, and a
  successful save becomes `.ok` of the updated state.  An `.error` result
  models a thrown exception before any save, i.e. the stored state unchanged.
- In-place mutation of the member subdocument found by `Array.prototype.find`
  is modelled by `updateFirst`, which rewrites the first list entry satisfying
  the same predicate `find?` used to locate it.
- Zod schema normalization (`.trim().toUpperCase()`, `.toLowerCase().trim()`)
  is applied at the top of the corresponding function, mirroring `parse`.
-/

/-- Member role, from the zod enum `['admin', 'member']`. -/
inductive Role where
  | admin
  | member
deriving DecidableEq, Repr

/-- One entry of a family group's `members` array
(`src/models`: `{userId, role, joinedAt, isActive}`). -/
structure Member where
  userId : String
  role : Role
  joinedAt : Nat
  isActive : Bool
deriving DecidableEq, Repr

/-- Family-group sharing/approval settings (five boolean flags). -/
structure Settings where
  allowMemberInvites : Bool
  requireApprovalForRecipes : Bool
  sharedPantry : Bool
  sharedMealPlans : Bool
  sharedShoppingLists : Bool
deriving DecidableEq, Repr

/-- The FamilyGroup aggregate. -/
structure FamilyGroup where
  name : String
  description : Option String
  adminId : String
  members : List Member
  inviteCode : String
  settings : Settings
deriving DecidableEq, Repr

/-- A user record of the identity store, as far as this subsystem reads it. -/
structure User where
  id : String
  email : String
deriving DecidableEq, Repr

/-- `ApiError(message, statusCode)` from the error-handler middleware. -/
structure ApiError where
  message : String
  status : Nat
deriving DecidableEq, Repr

/-- Body of `updateMemberSchema`: `{role?: 'admin'|'member', isActive?: boolean}`. -/
structure MemberUpdates where
  role : Option Role
  isActive : Option Bool
deriving DecidableEq, Repr

/-- Partial settings as accepted by `createFamilyGroupSchema.settings`
before zod fills the field defaults. -/
structure PartialSettings where
  allowMemberInvites : Option Bool
  requireApprovalForRecipes : Option Bool
  sharedPantry : Option Bool
  sharedMealPlans : Option Bool
  sharedShoppingLists : Option Bool
deriving DecidableEq, Repr

/-- Zod's per-field `.default(...)` fill on a provided `settings` object:
each missing field gets its schema default. -/
def zodFillSettings (p : PartialSettings) : Settings where
  allowMemberInvites := p.allowMemberInvites.getD true
  requireApprovalForRecipes := p.requireApprovalForRecipes.getD false
  sharedPantry := p.sharedPantry.getD true
  sharedMealPlans := p.sharedMealPlans.getD true
  sharedShoppingLists := p.sharedShoppingLists.getD true

/-- The literal settings object spelled out in `createFamilyGroup`
(the spread base `{allowMemberInvites: true, ...}`). -/
def defaultSettings : Settings where
  allowMemberInvites := true
  requireApprovalForRecipes := false
  sharedPantry := true
  sharedMealPlans := true
  sharedShoppingLists := true

/-- JS `String.prototype.toUpperCase()`, modelled per character; the
repository only feeds it ASCII identifiers and codes. -/
def toUpperStr (s : String) : String :=
  String.mk (s.data.map Char.toUpper)

/-- JS `String.prototype.toLowerCase()`, modelled per character. -/
def toLowerStr (s : String) : String :=
  String.mk (s.data.map Char.toLower)

/-- JS `String.prototype.trim()`: strip leading and trailing whitespace. -/
def trimStr (s : String) : String :=
  String.mk
    (((s.data.dropWhile Char.isWhitespace).reverse.dropWhile
        Char.isWhitespace).reverse)

/-- `isUserFamilyAdmin`: `familyGroup.adminId.toString() === userId`. -/
def isUserFamilyAdmin (userId : String) (g : FamilyGroup) : Bool :=
  g.adminId == userId

/-- `isUserFamilyMember`: some member entry has this userId and is active. -/
def isUserFamilyMember (userId : String) (g : FamilyGroup) : Bool :=
  g.members.any fun m => m.userId == userId && m.isActive

/-- Number of members with `role === 'admin' && isActive`, as computed by the
`adminCount` filters in `updateMember`, `removeMember` and `leaveFamilyGroup`. -/
def activeAdminCount (g : FamilyGroup) : Nat :=
  (g.members.filter fun m => m.role == Role.admin && m.isActive).length

/-- In-place mutation of the entry located by `find`: rewrite the first
element satisfying `p` with `f`, leave everything else untouched. -/
def updateFirst {α : Type} (p : α → Bool) (f : α → α) : List α → List α
  | [] => []
  | a :: as => if p a then f a :: as else a :: updateFirst p f as

/-- `generateInviteCode`: 8 iterations of
`chars.charAt(Math.floor(Math.random() * chars.length))` over
`'ABCDEFGHIJKLMNOPQRSTUVWXYZ0123456789'`.  The stream of
`Math.floor(Math.random() * 36)` draws (which always land in `[0, 35]`
because `Math.random() < 1`) is passed in as `r`. -/
def inviteCodeChars : List Char :=
  "ABCDEFGHIJKLMNOPQRSTUVWXYZ0123456789".data

theorem inviteCodeChars_length : inviteCodeChars.length = 36 := rfl

def generateInviteCode (r : Fin 8 → Fin 36) : String :=
  String.mk ((List.finRange 8).map fun i =>
    inviteCodeChars.get (Fin.cast inviteCodeChars_length.symm (r i)))

/-- `createFamilyGroup` (controller lines 148-219), after schema validation.
`inviteCode` stands for the code produced by the generate-until-unique loop,
and `now` for `new Date()`.  Returns the updated group collection. -/
def createFamilyGroup (groups : List FamilyGroup) (actorId : String)
    (name : String) (description : Option String)
    (settings : Option PartialSettings) (inviteCode : String) (now : Nat) :
    Except ApiError (List FamilyGroup) :=
  -- findOne({ adminId: req.user.id })
  if groups.any (fun g => g.adminId == actorId) then
    .error ⟨"You can only create one family group. Please leave your current group first.", 409⟩
  else
    -- settings: {five defaults, ...groupData.settings}: when the caller sent a
    -- settings object, zod has already filled every field, so the spread
    -- replaces all five defaults; when absent, the defaults stand.
    let mergedSettings := match settings with
      | none => defaultSettings
      | some p => zodFillSettings p
    .ok (groups ++ [{ name := name, description := description,
                      adminId := actorId,
                      members := [{ userId := actorId, role := Role.admin,
                                    joinedAt := now, isActive := true }],
                      inviteCode := inviteCode,
                      settings := mergedSettings }])

/-- `inviteMember` (controller lines 269-366) on an already-loaded group.
`users` is the identity store consulted by `User.findOne({email})`;
`email` is the raw request body field before zod's
`.toLowerCase().trim()`. -/
def inviteMember (users : List User) (actorId : String) (email : String)
    (now : Nat) (g : FamilyGroup) : Except ApiError FamilyGroup :=
  let e := trimStr (toLowerStr email)
  match g.members.find? (fun m => m.userId == actorId && m.isActive) with
  | none => .error ⟨"You are not a member of this family group", 403⟩
  | some userMember =>
    if userMember.role != Role.admin && !g.settings.allowMemberInvites then
      .error ⟨"Only admins can invite members to this family group", 403⟩
    else
      -- User.findOne({ email: email.toLowerCase() })
      match users.find? (fun u => u.email == toLowerStr e) with
      | none => .error ⟨"User with this email does not exist", 404⟩
      | some invitee =>
        match g.members.find? (fun m => m.userId == invitee.id) with
        | some existingMember =>
          if existingMember.isActive then
            .error ⟨"User is already a member of this family group", 409⟩
          else
            .ok { g with members := (updateFirst
                    (fun m => m.userId == invitee.id)
                    (fun m => { m with isActive := true, joinedAt := now })
                    g.members) }
        | none =>
          .ok { g with members := g.members ++
                  [{ userId := invitee.id, role := Role.member,
                     joinedAt := now, isActive := true }] }

/-- The per-group body of `joinByInviteCode` (controller lines 386-409),
once `findOne({inviteCode})` has produced the group. -/
def joinGroup (actorId : String) (now : Nat) (g : FamilyGroup) :
    Except ApiError FamilyGroup :=
  match g.members.find? (fun m => m.userId == actorId) with
  | some existingMember =>
    if existingMember.isActive then
      .error ⟨"You are already a member of this family group", 409⟩
    else
      .ok { g with members := (updateFirst
              (fun m => m.userId == actorId)
              (fun m => { m with isActive := true, joinedAt := now })
              g.members) }
  | none =>
    .ok { g with members := g.members ++
            [{ userId := actorId, role := Role.member,
               joinedAt := now, isActive := true }] }

/-- The invite-code key actually used by the lookup: zod applies
`.trim().toUpperCase()`, then the controller applies `.toUpperCase()` once
more inside `findOne`. -/
def lookupKey (code : String) : String :=
  toUpperStr (toUpperStr (trimStr code))

/-- `joinByInviteCode` (controller lines 368-436) over the whole group
collection; `code` is the raw request body field. -/
def joinByInviteCode (groups : List FamilyGroup) (actorId : String)
    (code : String) (now : Nat) : Except ApiError (List FamilyGroup) :=
  let c := toUpperStr (trimStr code)
  match groups.find? (fun g => g.inviteCode == toUpperStr c) with
  | none => .error ⟨"Invalid invite code", 404⟩
  | some g =>
    match joinGroup actorId now g with
    | .error e => .error e
    | .ok g2 =>
      .ok (updateFirst (fun h => h.inviteCode == toUpperStr c) (fun _ => g2)
        groups)

/-- `Object.assign(member, updates)` with the two fields of
`updateMemberSchema`. -/
def applyUpdates (m : Member) (u : MemberUpdates) : Member :=
  { m with role := u.role.getD m.role, isActive := u.isActive.getD m.isActive }

/-- `updateMember` (controller lines 438-499) on an already-loaded group. -/
def updateMember (actorId memberId : String) (u : MemberUpdates)
    (g : FamilyGroup) : Except ApiError FamilyGroup :=
  if !isUserFamilyAdmin actorId g then
    .error ⟨"Only family group admin can update members", 403⟩
  else
    match g.members.find? (fun m => m.userId == memberId) with
    | none => .error ⟨"Member not found", 404⟩
    | some member =>
      -- "Prevent admin from removing their own admin role if they're the only admin"
      if member.userId == actorId && u.role == some Role.member then
        if activeAdminCount g ≤ 1 then
          .error ⟨"Cannot remove admin role. Family group must have at least one admin.", 400⟩
        else
          .ok { g with members := (updateFirst
                  (fun m => m.userId == memberId) (fun m => applyUpdates m u)
                  g.members) }
      else
        .ok { g with members := (updateFirst
                (fun m => m.userId == memberId) (fun m => applyUpdates m u)
                g.members) }

/-- `removeMember` (controller lines 501-559) on an already-loaded group. -/
def removeMember (actorId memberId : String) (g : FamilyGroup) :
    Except ApiError FamilyGroup :=
  match g.members.find? (fun m => m.userId == memberId) with
  | none => .error ⟨"Member not found", 404⟩
  | some member =>
    let isAdmin := isUserFamilyAdmin actorId g
    let isSelf := actorId == memberId
    if !isAdmin && !isSelf then
      .error ⟨"You can only remove yourself from the family group", 403⟩
    else
      if member.role == Role.admin then
        if activeAdminCount g ≤ 1 then
          .error ⟨"Cannot remove the last admin. Please assign another admin first.", 400⟩
        else
          .ok { g with members := (updateFirst
                  (fun m => m.userId == memberId)
                  (fun m => { m with isActive := false }) g.members) }
      else
        .ok { g with members := (updateFirst
                (fun m => m.userId == memberId)
                (fun m => { m with isActive := false }) g.members) }

/-- `leaveFamilyGroup` (controller lines 561-610) on an already-loaded group. -/
def leaveFamilyGroup (actorId : String) (g : FamilyGroup) :
    Except ApiError FamilyGroup :=
  match g.members.find? (fun m => m.userId == actorId) with
  | none => .error ⟨"You are not a member of this family group", 404⟩
  | some member =>
    if !member.isActive then
      .error ⟨"You are not a member of this family group", 404⟩
    else
      if member.role == Role.admin then
        if activeAdminCount g ≤ 1 then
          .error ⟨"Cannot leave family group. You are the last admin. Please assign another admin first.", 400⟩
        else
          .ok { g with members := (updateFirst
                  (fun m => m.userId == actorId)
                  (fun m => { m with isActive := false }) g.members) }
      else
        .ok { g with members := (updateFirst
                (fun m => m.userId == actorId)
                (fun m => { m with isActive := false }) g.members) }

/-! ## Helper lemmas about `updateFirst`, `find?` and the admin-count filter -/

theorem updateFirst_length {α : Type} (p : α → Bool) (f : α → α) :
    ∀ l : List α, (updateFirst p f l).length = l.length
  | [] => rfl
  | a :: as => by
    simp only [updateFirst]
    by_cases h : p a <;> simp [h, updateFirst_length p f as]

theorem updateFirst_eq_set {α : Type} {p : α → Bool} (f : α → α) :
    ∀ {l : List α} {a : α}, l.find? p = some a →
      ∃ i, ∃ hi : i < l.length, l.get ⟨i, hi⟩ = a ∧ updateFirst p f l = l.set i (f a)
  | [], a, h => by simp at h
  | x :: xs, a, h => by
    by_cases hp : p x
    · rw [List.find?_cons_of_pos _ hp] at h
      injection h with h
      subst h
      exact ⟨0, by simp, rfl, by simp [updateFirst, hp]⟩
    · rw [List.find?_cons_of_neg _ hp] at h
      obtain ⟨i, hi, hget, hset⟩ := updateFirst_eq_set f h
      exact ⟨i + 1, by simpa using hi, by simpa using hget, by simp [updateFirst, hp, hset]⟩

theorem filter_length_updateFirst {α : Type} (P : α → Bool) {p : α → Bool} (f : α → α) :
    ∀ {l : List α} {a : α}, l.find? p = some a →
      ((updateFirst p f l).filter P).length + (if P a = true then 1 else 0)
        = (l.filter P).length + (if P (f a) = true then 1 else 0)
  | [], a, h => by simp at h
  | x :: xs, a, h => by
    by_cases hp : p x
    · rw [List.find?_cons_of_pos _ hp] at h
      injection h with h
      subst h
      simp only [updateFirst, if_pos hp, List.filter_cons]
      by_cases hPf : P (f x) = true <;> by_cases hPx : P x = true <;>
        simp [hPf, hPx, List.length_cons]
    · rw [List.find?_cons_of_neg _ hp] at h
      have ih := filter_length_updateFirst P f h
      simp only [updateFirst, if_neg hp, List.filter_cons]
      by_cases hPx : P x = true <;> simp [hPx] <;> omega

theorem map_updateFirst {α β : Type} (p : α → Bool) (f : α → α) (gm : α → β)
    (hf : ∀ a, gm (f a) = gm a) :
    ∀ l : List α, (updateFirst p f l).map gm = l.map gm
  | [] => rfl
  | a :: as => by
    simp only [updateFirst]
    by_cases h : p a <;> simp [h, hf, map_updateFirst p f gm hf as]

theorem mem_updateFirst {α : Type} {p : α → Bool} {f : α → α} :
    ∀ {l : List α} {x : α}, x ∈ updateFirst p f l → x ∈ l ∨ ∃ a, a ∈ l ∧ x = f a
  | [], x, hx => by simp [updateFirst] at hx
  | a :: as, x, hx => by
    simp only [updateFirst] at hx
    by_cases h : p a
    · rw [if_pos h] at hx
      rcases List.mem_cons.mp hx with h1 | h1
      · exact Or.inr ⟨a, List.mem_cons_self a as, h1⟩
      · exact Or.inl (List.mem_cons_of_mem a h1)
    · rw [if_neg h] at hx
      rcases List.mem_cons.mp hx with h1 | h1
      · exact Or.inl (h1 ▸ List.mem_cons_self a as)
      · rcases mem_updateFirst h1 with h2 | ⟨b, hb, hxb⟩
        · exact Or.inl (List.mem_cons_of_mem a h2)
        · exact Or.inr ⟨b, List.mem_cons_of_mem a hb, hxb⟩

theorem find?_userId_of_mem :
    ∀ {l : List Member} {m : Member},
      (l.map Member.userId).Nodup → m ∈ l →
      l.find? (fun x => x.userId == m.userId) = some m
  | [], m, _, hm => by simp at hm
  | x :: xs, m, hnd, hm => by
    rw [List.map_cons, List.nodup_cons] at hnd
    rcases List.mem_cons.mp hm with h1 | h1
    · subst h1
      exact List.find?_cons_of_pos _ (by simp)
    · have hne : (x.userId == m.userId) = false := by
        apply beq_eq_false_iff_ne.mpr
        intro hEq
        exact hnd.1 (hEq ▸ List.mem_map_of_mem Member.userId h1)
      rw [List.find?_cons_of_neg _ (by simp [hne]),
        find?_userId_of_mem hnd.2 h1]

theorem filter_length_append {α : Type} (P : α → Bool) (l : List α) (x : α) :
    ((l ++ [x]).filter P).length = (l.filter P).length + (if P x = true then 1 else 0) := by
  by_cases h : P x = true <;> simp [List.filter_append, h]

/-! ## Concrete scenarios used by counterexamples and witnesses -/

def mA : Member := { userId := "A", role := Role.admin, joinedAt := 0, isActive := true }
def mAm : Member := { userId := "A", role := Role.member, joinedAt := 0, isActive := true }
def mBadm : Member := { userId := "B", role := Role.admin, joinedAt := 1, isActive := true }
def mBadmIn : Member := { userId := "B", role := Role.admin, joinedAt := 1, isActive := false }
def mBm : Member := { userId := "B", role := Role.member, joinedAt := 1, isActive := true }
def mCin : Member := { userId := "C", role := Role.member, joinedAt := 2, isActive := false }

/-- A group whose only member is its sole active admin `A`. -/
def soleAdminGroup : FamilyGroup :=
  { name := "Smith Family", description := none, adminId := "A",
    members := [mA], inviteCode := "AAAA1111", settings := defaultSettings }

/-- `A` still holds `adminId` but was demoted to plain member;
`B` is the sole active admin. -/
def demotedCreatorGroup : FamilyGroup :=
  { name := "Smith Family", description := none, adminId := "A",
    members := [mAm, mBadm], inviteCode := "AAAA1111", settings := defaultSettings }

/-- `A` is the sole active admin; `B` is a deactivated admin entry. -/
def inactiveAdminGroup : FamilyGroup :=
  { name := "Smith Family", description := none, adminId := "A",
    members := [mA, mBadmIn], inviteCode := "CODE1234", settings := defaultSettings }

/-- A three-member group: active admin `A`, active member `B`,
deactivated member `C`. -/
def sampleGroup : FamilyGroup :=
  { name := "W", description := some "d", adminId := "A",
    members := [mA, mBm, mCin], inviteCode := "WXYZ0123", settings := defaultSettings }

def sampleUsers : List User :=
  [{ id := "B", email := "b@x.com" }, { id := "C", email := "c@x.com" },
   { id := "D", email := "d@x.com" }]

/-! ## Preservation of the active-admin count, per operation -/

/-- Effect of an in-place update of the entry located by `find?` on the
active-admin count (beta-reduced form of `filter_length_updateFirst`). -/
theorem activeAdminCount_updateFirst {p : Member → Bool} (f : Member → Member)
    {l : List Member} {m : Member} (h : l.find? p = some m) :
    ((updateFirst p f l).filter (fun x => x.role == Role.admin && x.isActive)).length
      + (if (m.role == Role.admin && m.isActive) = true then 1 else 0)
    = (l.filter (fun x => x.role == Role.admin && x.isActive)).length
      + (if ((f m).role == Role.admin && (f m).isActive) = true then 1 else 0) := by
  simpa using
    filter_length_updateFirst (fun x => x.role == Role.admin && x.isActive) f h

theorem inviteMember_preserves_admin (users : List User) (actorId email : String)
    (now : Nat) (g g' : FamilyGroup) (hinv : 1 ≤ activeAdminCount g)
    (h : inviteMember users actorId email now g = .ok g') :
    1 ≤ activeAdminCount g' := by
  simp only [inviteMember] at h
  split at h
  · simp at h
  · split at h
    · simp at h
    · split at h
      · simp at h
      · split at h
        · split at h
          · simp at h
          · -- reactivation of a deactivated entry
            rename_i invitee em hfind hact
            injection h with h
            subst h
            have key := activeAdminCount_updateFirst
              (fun m => { m with isActive := true, joinedAt := now }) hfind
            have hIA : em.isActive = false := by simpa using hact
            simp only [activeAdminCount] at hinv ⊢
            by_cases hR : em.role = Role.admin <;> simp [hR, hIA] at key <;> omega
        · -- append of a brand-new member entry
          injection h with h
          subst h
          simp only [activeAdminCount] at hinv ⊢
          rw [filter_length_append]
          simp
          omega

theorem joinGroup_preserves_admin (actorId : String) (now : Nat)
    (g g' : FamilyGroup) (hinv : 1 ≤ activeAdminCount g)
    (h : joinGroup actorId now g = .ok g') : 1 ≤ activeAdminCount g' := by
  simp only [joinGroup] at h
  split at h
  · rename_i em hfind
    split at h
    · simp at h
    · rename_i hact
      injection h with h
      subst h
      have key := activeAdminCount_updateFirst
        (fun m => { m with isActive := true, joinedAt := now }) hfind
      have hIA : em.isActive = false := by simpa using hact
      simp only [activeAdminCount] at hinv ⊢
      by_cases hR : em.role = Role.admin <;> simp [hR, hIA] at key <;> omega
  · injection h with h
    subst h
    simp only [activeAdminCount] at hinv ⊢
    rw [filter_length_append]
    simp
    omega

theorem removeMember_preserves_admin (actorId memberId : String)
    (g g' : FamilyGroup) (hinv : 1 ≤ activeAdminCount g)
    (h : removeMember actorId memberId g = .ok g') : 1 ≤ activeAdminCount g' := by
  simp only [removeMember] at h
  split at h
  · simp at h
  · rename_i em hfind
    split at h
    · simp at h
    · split at h
      · split at h
        · simp at h
        · -- an admin entry is deactivated, but at least two admins were active
          rename_i hrole hcnt
          injection h with h
          subst h
          have key := activeAdminCount_updateFirst
            (fun m => { m with isActive := false }) hfind
          simp only [activeAdminCount] at hinv hcnt ⊢
          by_cases hA : em.isActive = true <;> simp [hrole, hA] at key <;> omega
      · -- a non-admin entry is deactivated: the count is untouched
        rename_i hrole
        injection h with h
        subst h
        have key := activeAdminCount_updateFirst
          (fun m => { m with isActive := false }) hfind
        have hR : (em.role == Role.admin) = false := by simpa using hrole
        simp only [activeAdminCount] at hinv ⊢
        simp [hR] at key
        omega

theorem leaveFamilyGroup_preserves_admin (actorId : String)
    (g g' : FamilyGroup) (hinv : 1 ≤ activeAdminCount g)
    (h : leaveFamilyGroup actorId g = .ok g') : 1 ≤ activeAdminCount g' := by
  simp only [leaveFamilyGroup] at h
  split at h
  · simp at h
  · rename_i em hfind
    split at h
    · simp at h
    · split at h
      · split at h
        · simp at h
        · rename_i hrole hcnt
          injection h with h
          subst h
          have key := activeAdminCount_updateFirst
            (fun m => { m with isActive := false }) hfind
          simp only [activeAdminCount] at hinv hcnt ⊢
          by_cases hA : em.isActive = true <;> simp [hrole, hA] at key <;> omega
      · rename_i hrole
        injection h with h
        subst h
        have key := activeAdminCount_updateFirst
          (fun m => { m with isActive := false }) hfind
        have hR : (em.role == Role.admin) = false := by simpa using hrole
        simp only [activeAdminCount] at hinv ⊢
        simp [hR] at key
        omega

/-- The group after `A` (the sole active admin) deactivates themself through
`updateMember`. -/
def soleAdminGroupAfter : FamilyGroup :=
  { soleAdminGroup with members := [{ mA with isActive := false }] }

/-- C1 counterexample: `updateMember` accepts `{isActive: false}` aimed at the
sole active admin (here, by the admin themself); the invariant
`activeAdminCount >= 1` held before and is broken after, so not every
membership-mutating operation preserves it. -/
theorem updateMember_can_break_sole_admin :
    activeAdminCount soleAdminGroup = 1 ∧
    updateMember "A" "A" { role := none, isActive := some false } soleAdminGroup
      = .ok soleAdminGroupAfter ∧
    activeAdminCount soleAdminGroupAfter = 0 := by
  refine ⟨rfl, ?_, rfl⟩
  rfl

/-- C1 (amended): the sole-admin invariant `activeAdminCount >= 1` is
preserved by invite-member, join-by-code (both on the matched group and
across the whole collection), remove-member and leave-group; `updateMember`
is excluded, since it guards only the self-demotion case and can break the
invariant (see the counterexample). -/
theorem sole_admin_invariant_preserved (users : List User)
    (actorId memberId email code : String) (now : Nat)
    (gs gs' : List FamilyGroup) (g g' : FamilyGroup)
    (hinv : 1 ≤ activeAdminCount g) :
    (inviteMember users actorId email now g = .ok g' → 1 ≤ activeAdminCount g')
    ∧ (joinGroup actorId now g = .ok g' → 1 ≤ activeAdminCount g')
    ∧ (removeMember actorId memberId g = .ok g' → 1 ≤ activeAdminCount g')
    ∧ (leaveFamilyGroup actorId g = .ok g' → 1 ≤ activeAdminCount g')
    ∧ ((∀ h1 ∈ gs, 1 ≤ activeAdminCount h1) →
        joinByInviteCode gs actorId code now = .ok gs' →
        ∀ h2 ∈ gs', 1 ≤ activeAdminCount h2) := by
  refine ⟨inviteMember_preserves_admin users actorId email now g g' hinv,
    joinGroup_preserves_admin actorId now g g' hinv,
    removeMember_preserves_admin actorId memberId g g' hinv,
    leaveFamilyGroup_preserves_admin actorId g g' hinv, ?_⟩
  intro hall hj h2 hm
  simp only [joinByInviteCode] at hj
  split at hj
  · simp at hj
  · rename_i g0 hfind
    obtain ⟨g2, hjoin⟩ : ∃ g2, joinGroup actorId now g0 = .ok g2 := by
      cases hx : joinGroup actorId now g0 with
      | error e => simp [hx] at hj
      | ok k => exact ⟨k, rfl⟩
    simp only [hjoin] at hj
    injection hj with hj
    subst hj
    have hk := joinGroup_preserves_admin actorId now g0 g2
      (hall g0 (List.mem_of_find?_eq_some hfind)) hjoin
    rcases mem_updateFirst hm with hIn | ⟨a, _, hEq⟩
    · exact hall h2 hIn
    · subst hEq
      exact hk

/-- The sample group after `A` removes member `B`. -/
def sampleGroupAfterRemove : FamilyGroup :=
  { sampleGroup with members := [mA, { mBm with isActive := false }, mCin] }

theorem sole_admin_invariant_preserved_witness :
    1 ≤ activeAdminCount sampleGroup ∧
    removeMember "A" "B" sampleGroup = .ok sampleGroupAfterRemove ∧
    1 ≤ activeAdminCount sampleGroupAfterRemove :=
  ⟨by decide, by rfl,
    (sole_admin_invariant_preserved sampleUsers "A" "B" "b@x.com" "WXYZ0123" 7
      [] [] sampleGroup sampleGroupAfterRemove (by decide)).2.2.1 (by rfl)⟩

/-- The group after the adminId holder `A` demotes `B`, the sole active
admin. -/
def demotedCreatorGroupAfter : FamilyGroup :=
  { demotedCreatorGroup with members := [mAm, { mBadm with role := Role.member }] }

/-- C2 counterexample: when the target of the `role: 'member'` update is a
*different* member than the acting admin, the sole-admin guard does not fire:
the adminId holder `A` demotes `B`, the sole active admin, and the call
succeeds (no BadRequest), leaving zero active admins. -/
theorem updateMember_demote_other_not_rejected :
    activeAdminCount demotedCreatorGroup = 1 ∧
    mBadm.role = Role.admin ∧ mBadm.isActive = true ∧
    updateMember "A" "B" { role := some Role.member, isActive := none }
        demotedCreatorGroup
      = .ok demotedCreatorGroupAfter ∧
    activeAdminCount demotedCreatorGroupAfter = 0 := by
  refine ⟨rfl, rfl, rfl, ?_, rfl⟩
  rfl

/-- C2 (amended): the BadRequest rejection of a demotion of the sole active
admin applies (only) when the target member is the acting admin themself:
in that case, a `role: 'member'` update on the sole active admin is rejected
with status 400. -/
theorem updateMember_sole_admin_self_demotion_rejected
    (actorId memberId : String) (u : MemberUpdates) (g : FamilyGroup) (m : Member)
    (hadmin : isUserFamilyAdmin actorId g = true)
    (hfind : g.members.find? (fun x => x.userId == memberId) = some m)
    (hself : m.userId = actorId)
    (hrole : m.role = Role.admin) (hactive : m.isActive = true)
    (hnew : u.role = some Role.member)
    (hsole : activeAdminCount g ≤ 1) :
    updateMember actorId memberId u g
      = .error ⟨"Cannot remove admin role. Family group must have at least one admin.", 400⟩ := by
  simp [updateMember, hadmin, hfind, hself, hnew, hsole]

theorem updateMember_sole_admin_self_demotion_witness :
    activeAdminCount soleAdminGroup ≤ 1 ∧
    updateMember "A" "A" { role := some Role.member, isActive := none }
        soleAdminGroup
      = .error ⟨"Cannot remove admin role. Family group must have at least one admin.", 400⟩ :=
  ⟨by decide,
    updateMember_sole_admin_self_demotion_rejected "A" "A"
      { role := some Role.member, isActive := none } soleAdminGroup mA
      rfl (by rfl) rfl rfl rfl rfl (by decide)⟩

/-- C3: invite member — once the actor and permission checks pass and the
email resolves to user `invitee`, then (1) if the target is already an active
member the call fails with Conflict 409; (2) if the target has a deactivated
entry, that same entry is reactivated with `joinedAt` reset to `now` and the
roster length is unchanged; (3) otherwise exactly one new
`{userId, role: member, isActive: true, joinedAt: now}` entry is appended. -/
theorem inviteMember_effect
    (users : List User) (actorId email : String) (now : Nat) (g : FamilyGroup)
    (am : Member) (invitee : User)
    (hnd : (g.members.map Member.userId).Nodup)
    (hfind : g.members.find? (fun m => m.userId == actorId && m.isActive) = some am)
    (hperm : am.role = Role.admin ∨ g.settings.allowMemberInvites = true)
    (huser : users.find? (fun u => u.email == toLowerStr (trimStr (toLowerStr email))) = some invitee) :
    (∀ m ∈ g.members, m.userId = invitee.id → m.isActive = true →
        inviteMember users actorId email now g
          = .error ⟨"User is already a member of this family group", 409⟩)
    ∧ (∀ m ∈ g.members, m.userId = invitee.id → m.isActive = false →
        ∃ i, ∃ hi : i < g.members.length, g.members.get ⟨i, hi⟩ = m ∧
          inviteMember users actorId email now g
            = .ok { g with members :=
                g.members.set i { m with isActive := true, joinedAt := now } } ∧
          (g.members.set i { m with isActive := true, joinedAt := now }).length
            = g.members.length)
    ∧ ((∀ m ∈ g.members, m.userId ≠ invitee.id) →
        inviteMember users actorId email now g
          = .ok { g with members := g.members ++
              [{ userId := invitee.id, role := Role.member, joinedAt := now,
                 isActive := true }] }) := by
  have hcond : (am.role != Role.admin && !g.settings.allowMemberInvites) = false := by
    rcases hperm with h | h <;> simp [h]
  refine ⟨?_, ?_, ?_⟩
  · intro m hmem huid hact
    have hm := find?_userId_of_mem hnd hmem
    rw [huid] at hm
    simp [inviteMember, hfind, hcond, huser, hm, hact]
  · intro m hmem huid hact
    have hm := find?_userId_of_mem hnd hmem
    rw [huid] at hm
    obtain ⟨i, hi, hget, hset⟩ := updateFirst_eq_set
      (fun m => { m with isActive := true, joinedAt := now }) hm
    refine ⟨i, hi, hget, ?_, by simp⟩
    simp [inviteMember, hfind, hcond, huser, hm, hact, hset]
  · intro hnone
    have hm : g.members.find? (fun m => m.userId == invitee.id) = none :=
      List.find?_eq_none.mpr (fun x hx => by simp [hnone x hx])
    simp [inviteMember, hfind, hcond, huser, hm]

theorem inviteMember_effect_witness :
    inviteMember sampleUsers "A" "b@x.com" 7 sampleGroup
      = .error ⟨"User is already a member of this family group", 409⟩ ∧
    inviteMember sampleUsers "A" "d@x.com" 7 sampleGroup
      = .ok { sampleGroup with members := sampleGroup.members ++
          [{ userId := "D", role := Role.member, joinedAt := 7,
             isActive := true }] } :=
  ⟨(inviteMember_effect sampleUsers "A" "b@x.com" 7 sampleGroup mA
      ⟨"B", "b@x.com"⟩ (by decide) (by rfl) (Or.inl rfl) (by rfl)).1
      mBm (by simp [sampleGroup]) rfl rfl,
   (inviteMember_effect sampleUsers "A" "d@x.com" 7 sampleGroup mA
      ⟨"D", "d@x.com"⟩ (by decide) (by rfl) (Or.inl rfl) (by rfl)).2.2
      (by decide)⟩

/-- The group after deactivated admin `B` rejoins by invite code at time 5. -/
def inactiveAdminGroupAfterJoin : FamilyGroup :=
  { inactiveAdminGroup with
    members := [mA, { mBadmIn with isActive := true, joinedAt := 5 }] }

/-- C4 counterexample: `B` has a deactivated entry with role `admin`;
joining by (case-insensitively matched) invite code reactivates that entry
without touching its role, so after this successful join the joining user's
member entry has role `admin`, not `member`. -/
theorem joinByInviteCode_reactivation_keeps_role :
    mBadmIn.role = Role.admin ∧ mBadmIn.isActive = false ∧
    joinByInviteCode [inactiveAdminGroup] "B" "code1234" 5
      = .ok [inactiveAdminGroupAfterJoin] ∧
    (inactiveAdminGroupAfterJoin.members.find? (fun m => m.userId == "B")).map
        Member.role = some Role.admin ∧
    Role.admin ≠ Role.member := by
  exact ⟨rfl, rfl, by rfl, by rfl, by decide⟩

/-- C4 (amended): on a successful join by invite code, a newly appended entry
always has role `member`; a reactivated entry keeps its prior role (only
`isActive` and `joinedAt` change).  In both cases the operation succeeds:
beyond presenting a code that matches some group, the only check is that the
actor is not already an active member of it. -/
theorem joinByInviteCode_effect (gs : List FamilyGroup)
    (actorId code : String) (now : Nat) (g : FamilyGroup)
    (hfind : gs.find? (fun h => h.inviteCode == lookupKey code) = some g)
    (hnd : (g.members.map Member.userId).Nodup) :
    ((∀ m ∈ g.members, m.userId ≠ actorId) →
        joinByInviteCode gs actorId code now
          = .ok (updateFirst (fun h => h.inviteCode == lookupKey code)
              (fun _ => { g with members := g.members ++
                  [{ userId := actorId, role := Role.member, joinedAt := now,
                     isActive := true }] }) gs))
    ∧ (∀ m ∈ g.members, m.userId = actorId → m.isActive = false →
        ∃ i, ∃ hi : i < g.members.length, g.members.get ⟨i, hi⟩ = m ∧
          joinByInviteCode gs actorId code now
            = .ok (updateFirst (fun h => h.inviteCode == lookupKey code)
                (fun _ => { g with
                            members := g.members.set i
                              { m with isActive := true, joinedAt := now } })
                gs)) := by
  simp only [lookupKey] at hfind ⊢
  constructor
  · intro hnone
    have hm : g.members.find? (fun m => m.userId == actorId) = none :=
      List.find?_eq_none.mpr (fun x hx => by simp [hnone x hx])
    simp [joinByInviteCode, joinGroup, hfind, hm]
  · intro m hmem huid hact
    have hm := find?_userId_of_mem hnd hmem
    rw [huid] at hm
    obtain ⟨i, hi, hget, hset⟩ := updateFirst_eq_set
      (fun m => { m with isActive := true, joinedAt := now }) hm
    refine ⟨i, hi, hget, ?_⟩
    simp [joinByInviteCode, joinGroup, hfind, hm, hact, hset]

theorem joinByInviteCode_effect_witness :
    joinByInviteCode [soleAdminGroup, sampleGroup] "E" " wxyz0123 " 7
      = .ok [soleAdminGroup,
          { sampleGroup with members := sampleGroup.members ++
              [{ userId := "E", role := Role.member, joinedAt := 7,
                 isActive := true }] }] := by
  have h := (joinByInviteCode_effect [soleAdminGroup, sampleGroup] "E"
    " wxyz0123 " 7 sampleGroup (by rfl) (by decide)).1 (by decide)
  exact h.trans (by rfl)

/-- C5: join-by-invite-code normalization and failure modes.  (1) The result
depends on the presented code only through its trimmed, uppercased form, so
matching is case-insensitive; (2) if no group holds the normalized code the
call fails with NotFound 404; (3) if the actor is already an active member of
the matched group it fails with Conflict 409.  The errors return no updated
collection, so every group is left unchanged. -/
theorem joinByInviteCode_failures (gs : List FamilyGroup)
    (actorId code code2 : String) (now : Nat) (g : FamilyGroup) (m : Member) :
    (toUpperStr (trimStr code) = toUpperStr (trimStr code2) →
        joinByInviteCode gs actorId code now
          = joinByInviteCode gs actorId code2 now)
    ∧ ((∀ h ∈ gs, h.inviteCode ≠ lookupKey code) →
        joinByInviteCode gs actorId code now
          = .error ⟨"Invalid invite code", 404⟩)
    ∧ (gs.find? (fun h => h.inviteCode == lookupKey code) = some g →
        (g.members.map Member.userId).Nodup →
        m ∈ g.members → m.userId = actorId → m.isActive = true →
        joinByInviteCode gs actorId code now
          = .error ⟨"You are already a member of this family group", 409⟩) := by
  refine ⟨?_, ?_, ?_⟩
  · intro h
    simp only [joinByInviteCode]
    rw [h]
  · intro hnone
    have hm : gs.find? (fun h => h.inviteCode == toUpperStr (toUpperStr (trimStr code))) = none :=
      List.find?_eq_none.mpr (fun x hx => by
        have := hnone x hx
        simp only [lookupKey] at this
        simp [this])
    simp [joinByInviteCode, hm]
  · intro hfind hnd hmem huid hact
    simp only [lookupKey] at hfind
    have hm := find?_userId_of_mem hnd hmem
    rw [huid] at hm
    simp [joinByInviteCode, joinGroup, hfind, hm, hact]

theorem joinByInviteCode_failures_witness :
    joinByInviteCode [sampleGroup] "B" "nope" 7
      = .error ⟨"Invalid invite code", 404⟩ ∧
    joinByInviteCode [sampleGroup] "B" "wxyz0123" 7
      = .error ⟨"You are already a member of this family group", 409⟩ :=
  ⟨(joinByInviteCode_failures [sampleGroup] "B" "nope" "nope" 7
      sampleGroup mBm).2.1 (by decide),
   (joinByInviteCode_failures [sampleGroup] "B" "wxyz0123" "wxyz0123" 7
      sampleGroup mBm).2.2 (by rfl) (by decide) (by decide) rfl rfl⟩

/-- The spec's wording of the settings rule: the five documented defaults,
overridden field-by-field by the caller's provided settings fields. -/
def specSettingsMerge (p : Option PartialSettings) : Settings :=
  match p with
  | none => defaultSettings
  | some q =>
    { allowMemberInvites :=
        q.allowMemberInvites.getD defaultSettings.allowMemberInvites,
      requireApprovalForRecipes :=
        q.requireApprovalForRecipes.getD defaultSettings.requireApprovalForRecipes,
      sharedPantry := q.sharedPantry.getD defaultSettings.sharedPantry,
      sharedMealPlans := q.sharedMealPlans.getD defaultSettings.sharedMealPlans,
      sharedShoppingLists :=
        q.sharedShoppingLists.getD defaultSettings.sharedShoppingLists }

/-- C6: create family group.  If some existing group's `adminId` is the
initiator, the call fails with Conflict 409 and creates nothing; otherwise
exactly one group is appended, with `adminId` the initiator, a single
active admin member entry joined at `now`, and settings equal to the
defaults overridden field-by-field by the caller's settings (the zod
per-field defaults composed with the controller's spread agree with the
spec's merge rule). -/
theorem createFamilyGroup_spec (groups : List FamilyGroup)
    (actorId nm : String) (description : Option String)
    (settings : Option PartialSettings) (inviteCode : String) (now : Nat) :
    ((∃ g ∈ groups, g.adminId = actorId) →
        createFamilyGroup groups actorId nm description settings inviteCode now
          = .error ⟨"You can only create one family group. Please leave your current group first.", 409⟩)
    ∧ ((∀ g ∈ groups, g.adminId ≠ actorId) →
        createFamilyGroup groups actorId nm description settings inviteCode now
          = .ok (groups ++
              [{ name := nm, description := description, adminId := actorId,
                 members := [{ userId := actorId, role := Role.admin,
                               joinedAt := now, isActive := true }],
                 inviteCode := inviteCode,
                 settings := specSettingsMerge settings }])) := by
  constructor
  · rintro ⟨g, hg, hEq⟩
    have hany : groups.any (fun g => g.adminId == actorId) = true :=
      List.any_eq_true.mpr ⟨g, hg, by simp [hEq]⟩
    simp [createFamilyGroup, hany]
  · intro h
    have hany : groups.any (fun g => g.adminId == actorId) = false := by
      rw [List.any_eq_false]
      intro g hg
      simp [h g hg]
    simp only [createFamilyGroup, hany, Bool.false_eq_true, if_false]
    cases settings <;> rfl

theorem createFamilyGroup_spec_witness :
    createFamilyGroup [sampleGroup] "A" "X" none none "BBBB2222" 3
      = .error ⟨"You can only create one family group. Please leave your current group first.", 409⟩ ∧
    createFamilyGroup [sampleGroup] "Z" "X" none
        (some { allowMemberInvites := some false,
                requireApprovalForRecipes := none, sharedPantry := none,
                sharedMealPlans := none, sharedShoppingLists := none })
        "BBBB2222" 3
      = .ok [sampleGroup,
          { name := "X", description := none, adminId := "Z",
            members := [{ userId := "Z", role := Role.admin, joinedAt := 3,
                          isActive := true }],
            inviteCode := "BBBB2222",
            settings := { allowMemberInvites := false,
                          requireApprovalForRecipes := false,
                          sharedPantry := true, sharedMealPlans := true,
                          sharedShoppingLists := true } }] :=
  ⟨(createFamilyGroup_spec [sampleGroup] "A" "X" none none "BBBB2222" 3).1
      ⟨sampleGroup, by simp, rfl⟩,
   ((createFamilyGroup_spec [sampleGroup] "Z" "X" none
        (some { allowMemberInvites := some false,
                requireApprovalForRecipes := none, sharedPantry := none,
                sharedMealPlans := none, sharedShoppingLists := none })
        "BBBB2222" 3).2 (by decide)).trans (by rfl)⟩

/-- C7 counterexample: the claim's final clause says that when the target is
not a sole *active* admin the removal succeeds by deactivating them; but for
target `B` — an admin entry that is already deactivated — in a group with
exactly one active admin, the code instead rejects with 400, because the
guard tests only `role === 'admin'`. -/
theorem removeMember_inactive_admin_rejected :
    mBadmIn.role = Role.admin ∧ mBadmIn.isActive = false ∧
    activeAdminCount inactiveAdminGroup = 1 ∧
    removeMember "A" "B" inactiveAdminGroup
      = .error ⟨"Cannot remove the last admin. Please assign another admin first.", 400⟩ :=
  ⟨rfl, rfl, rfl, by rfl⟩

/-- C7 (amended): remove member.  (1) An actor who is neither the `adminId`
holder nor the target is rejected with Forbidden 403; (2) if the target
entry's role is `admin` and the group has at most one active admin, the call
is rejected with BadRequest 400 — *regardless of the target's own activity*;
(3) otherwise the target entry's `isActive` is set to false, all its other
fields and all other roster entries unchanged. -/
theorem removeMember_spec (actorId memberId : String) (g : FamilyGroup)
    (m : Member)
    (hfind : g.members.find? (fun x => x.userId == memberId) = some m) :
    (isUserFamilyAdmin actorId g = false → actorId ≠ memberId →
        removeMember actorId memberId g
          = .error ⟨"You can only remove yourself from the family group", 403⟩)
    ∧ (m.role = Role.admin → activeAdminCount g ≤ 1 →
        (isUserFamilyAdmin actorId g = true ∨ actorId = memberId) →
        removeMember actorId memberId g
          = .error ⟨"Cannot remove the last admin. Please assign another admin first.", 400⟩)
    ∧ (¬(m.role = Role.admin ∧ activeAdminCount g ≤ 1) →
        (isUserFamilyAdmin actorId g = true ∨ actorId = memberId) →
        ∃ i, ∃ hi : i < g.members.length, g.members.get ⟨i, hi⟩ = m ∧
          removeMember actorId memberId g
            = .ok { g with
                    members := g.members.set i { m with isActive := false } }) := by
  refine ⟨?_, ?_, ?_⟩
  · intro hnadm hnself
    have hns : (actorId == memberId) = false := beq_eq_false_iff_ne.mpr hnself
    simp [removeMember, hfind, hnadm, hns]
  · intro hrole hcnt hauth
    rcases hauth with h | h <;> simp [removeMember, hfind, hrole, hcnt, h]
  · intro hng hauth
    obtain ⟨i, hi, hget, hset⟩ := updateFirst_eq_set
      (fun m => { m with isActive := false }) hfind
    refine ⟨i, hi, hget, ?_⟩
    by_cases hr : m.role = Role.admin
    · have hc2 : ¬ activeAdminCount g ≤ 1 := fun hc => hng ⟨hr, hc⟩
      rcases hauth with h | h <;> simp [removeMember, hfind, hr, hc2, h, hset]
    · have hr2 : (m.role == Role.admin) = false := by simp [hr]
      rcases hauth with h | h <;> simp [removeMember, hfind, hr2, h, hset]

theorem removeMember_spec_witness :
    removeMember "C" "B" sampleGroup
      = .error ⟨"You can only remove yourself from the family group", 403⟩ ∧
    ∃ i, ∃ hi : i < sampleGroup.members.length,
      sampleGroup.members.get ⟨i, hi⟩ = mBm ∧
      removeMember "A" "B" sampleGroup
        = .ok { sampleGroup with
                members := sampleGroup.members.set i { mBm with isActive := false } } :=
  ⟨(removeMember_spec "C" "B" sampleGroup mBm (by rfl)).1 rfl (by decide),
   (removeMember_spec "A" "B" sampleGroup mBm (by rfl)).2.2 (by decide)
     (Or.inl rfl)⟩

/-- C10: the remove-member sole-admin guard keys off the target's `role`
field alone: in a group with at most one active admin, removing a target
whose role is `admin` is rejected with 400 even when that target is already
deactivated (so the removal could not change the active-admin count). -/
theorem removeMember_guard_ignores_activity (actorId memberId : String)
    (g : FamilyGroup) (m : Member)
    (hfind : g.members.find? (fun x => x.userId == memberId) = some m)
    (hauth : isUserFamilyAdmin actorId g = true ∨ actorId = memberId)
    (hrole : m.role = Role.admin) (hinactive : m.isActive = false)
    (hcount : activeAdminCount g ≤ 1) :
    removeMember actorId memberId g
      = .error ⟨"Cannot remove the last admin. Please assign another admin first.", 400⟩ := by
  rcases hauth with h | h <;> simp [removeMember, hfind, hrole, hcount, h]

theorem removeMember_guard_ignores_activity_witness :
    mBadmIn.isActive = false ∧ activeAdminCount inactiveAdminGroup ≤ 1 ∧
    removeMember "A" "B" inactiveAdminGroup
      = .error ⟨"Cannot remove the last admin. Please assign another admin first.", 400⟩ :=
  ⟨rfl, by decide,
   removeMember_guard_ignores_activity "A" "B" inactiveAdminGroup mBadmIn
     (by rfl) (Or.inl rfl) rfl rfl (by decide)⟩

/-- C8: every string produced by the invite-code generator has exactly 8
characters, each drawn from the alphabet `A-Z0-9`, whatever the stream of
random draws. -/
theorem generateInviteCode_length_alphabet (r : Fin 8 → Fin 36) :
    (generateInviteCode r).length = 8 ∧
    ∀ c ∈ (generateInviteCode r).data, c ∈ inviteCodeChars := by
  constructor
  · simp [generateInviteCode, String.length]
  · intro c hc
    have hc2 : c ∈ (List.finRange 8).map (fun i =>
        inviteCodeChars.get (Fin.cast inviteCodeChars_length.symm (r i))) := hc
    rcases List.mem_map.mp hc2 with ⟨i, _, rfl⟩
    exact List.get_mem _ _ _

theorem generateInviteCode_length_alphabet_witness :
    (generateInviteCode fun _ => (0 : Fin 36)).length = 8 ∧
    'A' ∈ inviteCodeChars :=
  ⟨(generateInviteCode_length_alphabet fun _ => (0 : Fin 36)).1,
   (generateInviteCode_length_alphabet fun _ => (0 : Fin 36)).2 'A' (by decide)⟩

/-- C9: no membership operation ever deletes a roster entry or changes an
existing entry's `userId`.  On success, invite and join leave the existing
`userId` sequence as a prefix (appending at most one new id), member update
leaves the `userId` sequence unchanged, and remove and leave rewrite exactly
one entry, replacing it by the same entry with `isActive := false`.  In
particular the roster length never decreases. -/
theorem membership_ops_soft_removal
    (users : List User) (actorId memberId email : String) (now : Nat)
    (g g' : FamilyGroup) (u : MemberUpdates) :
    (inviteMember users actorId email now g = .ok g' →
        ∃ s, g'.members.map Member.userId = g.members.map Member.userId ++ s)
    ∧ (joinGroup actorId now g = .ok g' →
        ∃ s, g'.members.map Member.userId = g.members.map Member.userId ++ s)
    ∧ (updateMember actorId memberId u g = .ok g' →
        g'.members.map Member.userId = g.members.map Member.userId)
    ∧ (removeMember actorId memberId g = .ok g' →
        ∃ i, ∃ hi : i < g.members.length,
          g'.members = g.members.set i
            { g.members.get ⟨i, hi⟩ with isActive := false })
    ∧ (leaveFamilyGroup actorId g = .ok g' →
        ∃ i, ∃ hi : i < g.members.length,
          g'.members = g.members.set i
            { g.members.get ⟨i, hi⟩ with isActive := false }) := by
  refine ⟨?_, ?_, ?_, ?_, ?_⟩
  · intro h
    simp only [inviteMember] at h
    split at h
    · simp at h
    · split at h
      · simp at h
      · split at h
        · simp at h
        · split at h
          · split at h
            · simp at h
            · rename_i ou invitee hufind om em hfind hact
              injection h with h
              subst h
              refine ⟨[], ?_⟩
              simp [map_updateFirst (fun m => m.userId == invitee.id)
                (fun m => { m with isActive := true, joinedAt := now })
                Member.userId (fun a => rfl)]
          · rename_i ou invitee hufind om hfind
            injection h with h
            subst h
            exact ⟨[invitee.id], by simp⟩
  · intro h
    simp only [joinGroup] at h
    split at h
    · split at h
      · simp at h
      · rename_i om em hfind hact
        injection h with h
        subst h
        refine ⟨[], ?_⟩
        simp [map_updateFirst (fun m => m.userId == actorId)
          (fun m => { m with isActive := true, joinedAt := now })
          Member.userId (fun a => rfl)]
    · injection h with h
      subst h
      exact ⟨[actorId], by simp⟩
  · intro h
    simp only [updateMember] at h
    split at h
    · simp at h
    · split at h
      · simp at h
      · split at h
        · split at h
          · simp at h
          · injection h with h
            subst h
            simp [map_updateFirst (fun m => m.userId == memberId)
              (fun m => applyUpdates m u) Member.userId (fun a => rfl)]
        · injection h with h
          subst h
          simp [map_updateFirst (fun m => m.userId == memberId)
            (fun m => applyUpdates m u) Member.userId (fun a => rfl)]
  · intro h
    simp only [removeMember] at h
    split at h
    · simp at h
    · rename_i em hfind
      obtain ⟨i, hi, hget, hset⟩ := updateFirst_eq_set
        (fun m => { m with isActive := false }) hfind
      split at h
      · simp at h
      · split at h
        · split at h
          · simp at h
          · injection h with h
            subst h
            exact ⟨i, hi, by
              have hg2 : g.members[i] = em := by simpa using hget
              simp [hset, hg2]⟩
        · injection h with h
          subst h
          exact ⟨i, hi, by
              have hg2 : g.members[i] = em := by simpa using hget
              simp [hset, hg2]⟩
  · intro h
    simp only [leaveFamilyGroup] at h
    split at h
    · simp at h
    · rename_i em hfind
      obtain ⟨i, hi, hget, hset⟩ := updateFirst_eq_set
        (fun m => { m with isActive := false }) hfind
      split at h
      · simp at h
      · split at h
        · split at h
          · simp at h
          · injection h with h
            subst h
            exact ⟨i, hi, by
              have hg2 : g.members[i] = em := by simpa using hget
              simp [hset, hg2]⟩
        · injection h with h
          subst h
          exact ⟨i, hi, by
              have hg2 : g.members[i] = em := by simpa using hget
              simp [hset, hg2]⟩

theorem membership_ops_soft_removal_witness :
    (∃ s, ({ sampleGroup with members := sampleGroup.members ++
          [{ userId := "D", role := Role.member, joinedAt := 7,
             isActive := true }] } : FamilyGroup).members.map Member.userId
        = sampleGroup.members.map Member.userId ++ s) ∧
    (∃ i, ∃ hi : i < sampleGroup.members.length,
      sampleGroupAfterRemove.members = sampleGroup.members.set i
        { sampleGroup.members.get ⟨i, hi⟩ with isActive := false }) :=
  ⟨(membership_ops_soft_removal sampleUsers "A" "B" "d@x.com" 7 sampleGroup
      { sampleGroup with members := sampleGroup.members ++
          [{ userId := "D", role := Role.member, joinedAt := 7,
             isActive := true }] } { role := none, isActive := none }).1
      (by rfl),
   (membership_ops_soft_removal sampleUsers "A" "B" "d@x.com" 7 sampleGroup
      sampleGroupAfterRemove { role := none, isActive := none }).2.2.2.1
      (by rfl)⟩
